import Mathlib

/-!
Shallow embedding of the emotion-classification pipeline of the
Hackathon-emotion-stuff repository and proofs of its specified properties.

Numeric values are modelled as rationals (`ℚ`); JavaScript exceptions are
modelled by `Except String`.  The embedded functions mirror, line by line:

* `extractFeatures`, `normalizeFeatures`  (src/app/utils/llmService.ts,
  EEG processor section),
* the arg-max selection loop of `classify` / `classifyEmotion`
  (src/app/hooks/useEmotionClassifier.ts, src/app/components/EmotionMonitor.tsx),
* the sample-buffer append of `connectToUnicorn`
  (src/app/components/EmotionMonitor.tsx),
* `searchYouTubeVideos`, `getRecommendedGenre`, `getEmotionMusicDescription`
  (src/unnamed/part_000, the YouTube service) and the `emotionToTone`
  lookup of `sendMessageToLLM` (src/app/utils/llmService.ts).
-/

/-- One EEG sample: 8 channel readings plus a capture timestamp
(interface `EegChannelData`). -/
structure EegChannelData where
  eeg1 : ℚ
  eeg2 : ℚ
  eeg3 : ℚ
  eeg4 : ℚ
  eeg5 : ℚ
  eeg6 : ℚ
  eeg7 : ℚ
  eeg8 : ℚ
  timestamp : ℚ
deriving DecidableEq, Repr

/-- A feature vector: the `features` record of `extractFeatures`, holding
exactly the 8 channel keys eeg1..eeg8. -/
structure Feats where
  eeg1 : ℚ
  eeg2 : ℚ
  eeg3 : ℚ
  eeg4 : ℚ
  eeg5 : ℚ
  eeg6 : ℚ
  eeg7 : ℚ
  eeg8 : ℚ
deriving DecidableEq, Repr

/-- The zero-initialised `features` accumulator of `extractFeatures`. -/
def zeroFeats : Feats := ⟨0, 0, 0, 0, 0, 0, 0, 0⟩

/-- The channel values of a feature vector, in key order eeg1..eeg8. -/
def featsVals (f : Feats) : List ℚ :=
  [f.eeg1, f.eeg2, f.eeg3, f.eeg4, f.eeg5, f.eeg6, f.eeg7, f.eeg8]

/-- The body of the `eegData.forEach` loop of `extractFeatures`: add
`sample.<ch> / eegData.length` to each accumulated channel. -/
def accumSample (n : ℚ) (f : Feats) (s : EegChannelData) : Feats :=
  ⟨f.eeg1 + s.eeg1 / n, f.eeg2 + s.eeg2 / n, f.eeg3 + s.eeg3 / n,
   f.eeg4 + s.eeg4 / n, f.eeg5 + s.eeg5 / n, f.eeg6 + s.eeg6 / n,
   f.eeg7 + s.eeg7 / n, f.eeg8 + s.eeg8 / n⟩

/-- `extractFeatures` (llmService.ts, EEG section, lines 161-186): throws on
empty input, otherwise accumulates `sample.value / n` per sample into each
of the 8 channels. -/
def extractFeatures (eegData : List EegChannelData) : Except String Feats :=
  if eegData.length = 0 then
    Except.error "No EEG data provided for feature extraction"
  else
    Except.ok (eegData.foldl (accumSample eegData.length) zeroFeats)

/-- The per-key body of the `Object.keys(normalized).forEach` loop of
`normalizeFeatures`: map from the min-max range to 0-1, then clamp to
the 0-1 range. -/
def normChan (min max v : ℚ) : ℚ :=
  Max.max 0 (Min.min 1 ((v - min) / (max - min)))

/-- `normalizeFeatures` (llmService.ts, EEG section, lines 191-204): applies
`normChan` to every channel value.  The source contains no validity check on
the bounds and no `throw`, so the embedding always returns `Except.ok`. -/
def normalizeFeatures (features : Feats) (min : ℚ := -50) (max : ℚ := 50) :
    Except String Feats :=
  Except.ok
    ⟨normChan min max features.eeg1, normChan min max features.eeg2,
     normChan min max features.eeg3, normChan min max features.eeg4,
     normChan min max features.eeg5, normChan min max features.eeg6,
     normChan min max features.eeg7, normChan min max features.eeg8⟩

/-- The fixed emotion enumeration `EMOTIONS` (useEmotionClassifier.ts line 5,
EmotionMonitor.tsx line 23). -/
def EMOTIONS : List String :=
  ["happy", "sad", "angry", "calm", "fear", "surprise", "neutral"]

/-- One iteration of the `EMOTIONS.forEach` running-max loop of `classify` /
`classifyEmotion`: update `(highestScore, detectedEmotion)` when
`result[emotion] > highestScore`. -/
def pickStep (result : String → ℚ) (acc : ℚ × String) (e : String) :
    ℚ × String :=
  if result e > acc.1 then (result e, e) else acc

/-- The arg-max selection of `classify` (useEmotionClassifier.ts lines
108-119) and `classifyEmotion` (EmotionMonitor.tsx lines 149-158): running
max over `EMOTIONS` starting from `highestScore = 0`,
`detectedEmotion = 'neutral'`. -/
def pickEmotion (result : String → ℚ) : String :=
  (EMOTIONS.foldl (pickStep result) (0, "neutral")).2

/-- The body of the `try` block of `classify` (useEmotionClassifier.ts lines
98-119): extract features, normalize with the default bounds, run the trained
network (abstracted as the fallible `run`), and select the arg-max label.
Any step may throw. -/
def classifyPipeline (run : Feats → Except String (String → ℚ))
    (eegData : List EegChannelData) : Except String String :=
  match extractFeatures eegData with
  | Except.error e => Except.error e
  | Except.ok features =>
    match normalizeFeatures features with
    | Except.error e => Except.error e
    | Except.ok normalizedFeatures =>
      match run normalizedFeatures with
      | Except.error e => Except.error e
      | Except.ok result => Except.ok (pickEmotion result)

/-- `classify` (useEmotionClassifier.ts lines 93-124): returns `'neutral'`
when the classifier is absent or not ready, otherwise runs the pipeline in a
`try`/`catch` that converts any error into `'neutral'`. -/
def classify (hasClassifier isReady : Bool)
    (run : Feats → Except String (String → ℚ))
    (eegData : List EegChannelData) : String :=
  if !hasClassifier || !isReady then "neutral"
  else
    match classifyPipeline run eegData with
    | Except.ok detectedEmotion => detectedEmotion
    | Except.error _ => "neutral"

/-- JS `Array.prototype.slice(-n)`: the last `min (l.length) n` elements. -/
def sliceLast (n : Nat) (l : List α) : List α := l.drop (l.length - n)

/-- The buffer update of the acquisition interval in `connectToUnicorn`
(EmotionMonitor.tsx line 95):
`dataBuffer.current = [...dataBuffer.current, newData].slice(-100)`. -/
def appendSample (buf : List EegChannelData) (newData : EegChannelData) :
    List EegChannelData :=
  sliceLast 100 (buf ++ [newData])

/-- A YouTube track (interface `YouTubeTrack` of the YouTube service). -/
structure YouTubeTrack where
  id : String
  title : String
deriving DecidableEq, Repr

/-- The `'upbeat happy music'` entry of `fallbackTracks`. -/
def happyTracks : List YouTubeTrack :=
  [⟨"dQw4w9WgXcQ", "Happy Vibes"⟩, ⟨"y6120QOlsfU", "Uplifting Rhythm"⟩,
   ⟨"L_jWHffIx5E", "Sunny Day"⟩]

/-- The `'lofi study beats'` entry of `fallbackTracks`, also the default
returned when no key matches. -/
def lofiTracks : List YouTubeTrack :=
  [⟨"5qap5aO4i9A", "Chill Beats to Study To"⟩, ⟨"bmVKaAV_7-A", "Lofi Cafe"⟩,
   ⟨"DWcJFNfaw9c", "Late Night Study Session"⟩]

/-- The `fallbackTracks` table of the YouTube service (src/unnamed/part_000
lines 17-53), in object-key insertion order. -/
def fallbackTracks : List (String × List YouTubeTrack) :=
  [("upbeat happy music", happyTracks),
   ("melancholic piano music",
    [⟨"rR94NDIfGmA", "Rainy Day Piano"⟩, ⟨"4N3N1MlvVc4", "Melancholy Sonata"⟩,
     ⟨"wAPCSnAhhC8", "Nostalgic Memories"⟩]),
   ("calming ambient music",
    [⟨"DWcJFNfaw9c", "Tranquil Waters"⟩, ⟨"lTRiuFIWV54", "Forest Ambience"⟩,
     ⟨"hHW1oY26kxQ", "Peaceful Horizon"⟩]),
   ("relaxing meditation music",
    [⟨"5qap5aO4i9A", "Zen Garden"⟩, ⟨"DfG6VKnjrVw", "Inner Peace"⟩,
     ⟨"lFcSrYw-ARY", "Mindful Moments"⟩]),
   ("soothing acoustic music",
    [⟨"jdYJf_ybyVo", "Gentle Guitar"⟩, ⟨"HSOtku1j600", "Acoustic Dreams"⟩,
     ⟨"KkOF8UiB7u8", "Campfire Melodies"⟩]),
   ("inspirational orchestral music",
    [⟨"oN2Xs-MvxLw", "Epic Journey"⟩, ⟨"FK30dkXOTck", "New Horizons"⟩,
     ⟨"XYKUeZQbMF0", "Awakening"⟩]),
   ("lofi study beats", lofiTracks)]

/-- Character-level model of JS `String.prototype.startsWith` on char lists. -/
def startsWithL : List Char → List Char → Bool
  | _, [] => true
  | [], _ :: _ => false
  | h :: hs, n :: ns => h == n && startsWithL hs ns

/-- Character-level model of JS `String.prototype.includes`:
`includesL hay need` holds when `need` occurs contiguously in `hay`. -/
def includesL : List Char → List Char → Bool
  | [], need => startsWithL [] need
  | h :: t, need => startsWithL (h :: t) need || includesL t need

/-- JS `a.includes(b)` on Lean strings. -/
def strIncludes (a b : String) : Bool := includesL a.toList b.toList

/-- JS `String.prototype.toLowerCase` (ASCII case-fold suffices for the
genre keys involved). -/
def strToLower (s : String) : String := String.mk (s.toList.map Char.toLower)

/-- The `catch` branch of `searchYouTubeVideos` (src/unnamed/part_000 lines
65-80): case-fold the genre, scan the fallback keys in insertion order for
one where `normalizedGenre.includes(key) || key.includes(normalizedGenre)`,
defaulting to the lofi list. -/
def searchFallback (genre : String) : List YouTubeTrack :=
  let normalizedGenre := strToLower genre
  match fallbackTracks.find?
      (fun p => strIncludes normalizedGenre p.1 || strIncludes p.1 normalizedGenre) with
  | some p => p.2
  | none => lofiTracks

/-- `searchYouTubeVideos` (src/unnamed/part_000 lines 58-81): the remote call
is abstracted as an `Except`; `Except.ok` models a 2xx response whose
`tracks` field may be missing (`response.data.tracks || []`), and
`Except.error` models any failure, handled by the fallback table. -/
def searchYouTubeVideos (remote : Except String (Option (List YouTubeTrack)))
    (genre : String) : List YouTubeTrack :=
  match remote with
  | Except.ok (some tracks) => tracks
  | Except.ok none => []
  | Except.error _ => searchFallback genre

/-- Lookup in a JS `Record<string, string>` with a `|| dflt` default. -/
def lookupD (m : List (String × String)) (dflt : String) (k : String) :
    String :=
  match m.find? (fun p => p.1 == k) with
  | some p => p.2
  | none => dflt

/-- The `emotionToGenre` record of `getRecommendedGenre`
(src/unnamed/part_000 lines 89-97). -/
def emotionToGenreMap : List (String × String) :=
  [("happy", "upbeat happy music"), ("sad", "melancholic piano music"),
   ("angry", "calming ambient music"), ("calm", "relaxing meditation music"),
   ("fear", "soothing acoustic music"),
   ("surprise", "inspirational orchestral music"),
   ("neutral", "lofi study beats")]

/-- `getRecommendedGenre` (src/unnamed/part_000 lines 86-100).  The input is
`string | null`; JS treats both `null` and the empty string as falsy in
`if (!emotion)`. -/
def getRecommendedGenre (emotion : Option String) : String :=
  match emotion with
  | none => "lofi study beats"
  | some s =>
    if s = "" then "lofi study beats"
    else lookupD emotionToGenreMap "lofi study beats" s

/-- The `descriptions` record of `getEmotionMusicDescription`
(src/unnamed/part_000 lines 148-156). -/
def descriptionsMap : List (String × String) :=
  [("happy", "Uplifting tunes to boost your happiness"),
   ("sad", "Comforting melodies for reflection"),
   ("angry", "Calming sounds to ease tension"),
   ("calm", "Peaceful ambient music to maintain tranquility"),
   ("fear", "Soothing melodies to provide reassurance"),
   ("surprise", "Inspirational music for this moment of wonder"),
   ("neutral", "Pleasant background music for focus")]

/-- `getEmotionMusicDescription` (src/unnamed/part_000 lines 145-159). -/
def getEmotionMusicDescription (emotion : Option String) : String :=
  match emotion with
  | none => "Music to match your mood"
  | some s =>
    if s = "" then "Music to match your mood"
    else lookupD descriptionsMap "Music to match your mood" s

/-- The `emotionToTone` record (llmService.ts lines 21-29). -/
def emotionToTone : List (String × String) :=
  [("happy", "enthusiastic and upbeat"), ("sad", "empathetic and comforting"),
   ("angry", "calm and de-escalating"), ("calm", "peaceful and measured"),
   ("fear", "reassuring and supportive"), ("surprise", "engaged and attentive"),
   ("neutral", "balanced and informative")]

/-- The tone selection of `sendMessageToLLM` (llmService.ts line 49):
`currentEmotion ? emotionToTone[currentEmotion] || 'neutral and helpful'
: 'neutral and helpful'`. -/
def toneForEmotion (currentEmotion : Option String) : String :=
  match currentEmotion with
  | none => "neutral and helpful"
  | some s =>
    if s = "" then "neutral and helpful"
    else lookupD emotionToTone "neutral and helpful" s

/-- Modelled from the spec for the refinement comparison in claim C5:
"selects the label with the strictly highest score, breaking ties by
enumeration order (first-listed wins on exact tie)" — the first label in
`EMOTIONS` whose score is greater than or equal to every label's score. -/
def specArgmax (result : String → ℚ) : String :=
  (EMOTIONS.find?
    (fun e => EMOTIONS.all (fun f => decide (result f ≤ result e)))).getD "neutral"

theorem foldl_accum_proj (n : ℚ) (p : Feats → ℚ) (q : EegChannelData → ℚ)
    (hpq : ∀ f s, p (accumSample n f s) = p f + q s / n) :
    ∀ (data : List EegChannelData) (f0 : Feats),
      p (data.foldl (accumSample n) f0) = p f0 + (data.map q).sum / n := by
  intro data
  induction data with
  | nil => intro f0; simp
  | cons s t ih =>
    intro f0
    rw [List.foldl_cons, ih, hpq, List.map_cons, List.sum_cons, add_div]
    ring

/-- C4: `extractFeatures` on the empty sequence throws (models
`throw new Error('No EEG data provided for feature extraction')`), and on any
non-empty sequence it returns a value. -/
theorem extractFeatures_empty_error :
    extractFeatures [] =
      Except.error "No EEG data provided for feature extraction" ∧
    ∀ eegData : List EegChannelData, eegData ≠ [] →
      ∃ f, extractFeatures eegData = Except.ok f := by
  refine ⟨rfl, ?_⟩
  intro eegData h
  refine ⟨eegData.foldl (accumSample eegData.length) zeroFeats, ?_⟩
  unfold extractFeatures
  rw [if_neg (by simpa using h)]

theorem extractFeatures_empty_error_witness :
    ∃ f, extractFeatures [⟨1, 2, 3, 4, 5, 6, 7, 8, 0⟩] = Except.ok f :=
  extractFeatures_empty_error.2 [⟨1, 2, 3, 4, 5, 6, 7, 8, 0⟩] (by simp)

/-- C1: on any non-empty window, `extractFeatures` returns a feature vector
with exactly the 8 channel keys, each equal to the arithmetic mean of that
channel over the window (exact over `ℚ`; the code accumulates
`sample.value / n` per sample, and Σ (v / n) = (Σ v) / n). -/
theorem extractFeatures_mean (eegData : List EegChannelData)
    (h : eegData ≠ []) :
    ∃ f, extractFeatures eegData = Except.ok f ∧
      (featsVals f).length = 8 ∧
      f.eeg1 = (eegData.map EegChannelData.eeg1).sum / eegData.length ∧
      f.eeg2 = (eegData.map EegChannelData.eeg2).sum / eegData.length ∧
      f.eeg3 = (eegData.map EegChannelData.eeg3).sum / eegData.length ∧
      f.eeg4 = (eegData.map EegChannelData.eeg4).sum / eegData.length ∧
      f.eeg5 = (eegData.map EegChannelData.eeg5).sum / eegData.length ∧
      f.eeg6 = (eegData.map EegChannelData.eeg6).sum / eegData.length ∧
      f.eeg7 = (eegData.map EegChannelData.eeg7).sum / eegData.length ∧
      f.eeg8 = (eegData.map EegChannelData.eeg8).sum / eegData.length := by
  refine ⟨eegData.foldl (accumSample eegData.length) zeroFeats, ?_, rfl, ?_⟩
  · unfold extractFeatures
    rw [if_neg (by simpa using h)]
  refine ⟨?_, ?_, ?_, ?_, ?_, ?_, ?_, ?_⟩ <;>
    first
    | rw [foldl_accum_proj eegData.length Feats.eeg1 EegChannelData.eeg1
        (fun f s => rfl) eegData zeroFeats]; simp [zeroFeats]
    | rw [foldl_accum_proj eegData.length Feats.eeg2 EegChannelData.eeg2
        (fun f s => rfl) eegData zeroFeats]; simp [zeroFeats]
    | rw [foldl_accum_proj eegData.length Feats.eeg3 EegChannelData.eeg3
        (fun f s => rfl) eegData zeroFeats]; simp [zeroFeats]
    | rw [foldl_accum_proj eegData.length Feats.eeg4 EegChannelData.eeg4
        (fun f s => rfl) eegData zeroFeats]; simp [zeroFeats]
    | rw [foldl_accum_proj eegData.length Feats.eeg5 EegChannelData.eeg5
        (fun f s => rfl) eegData zeroFeats]; simp [zeroFeats]
    | rw [foldl_accum_proj eegData.length Feats.eeg6 EegChannelData.eeg6
        (fun f s => rfl) eegData zeroFeats]; simp [zeroFeats]
    | rw [foldl_accum_proj eegData.length Feats.eeg7 EegChannelData.eeg7
        (fun f s => rfl) eegData zeroFeats]; simp [zeroFeats]
    | rw [foldl_accum_proj eegData.length Feats.eeg8 EegChannelData.eeg8
        (fun f s => rfl) eegData zeroFeats]; simp [zeroFeats]

theorem extractFeatures_mean_witness :
    ∃ f, extractFeatures [⟨8, 16, 24, 32, 40, 48, 56, 64, 0⟩] = Except.ok f ∧
      (featsVals f).length = 8 ∧
      f.eeg1 = ([⟨8, 16, 24, 32, 40, 48, 56, 64, 0⟩].map
        EegChannelData.eeg1).sum / 1 ∧
      f.eeg2 = ([⟨8, 16, 24, 32, 40, 48, 56, 64, 0⟩].map
        EegChannelData.eeg2).sum / 1 ∧
      f.eeg3 = ([⟨8, 16, 24, 32, 40, 48, 56, 64, 0⟩].map
        EegChannelData.eeg3).sum / 1 ∧
      f.eeg4 = ([⟨8, 16, 24, 32, 40, 48, 56, 64, 0⟩].map
        EegChannelData.eeg4).sum / 1 ∧
      f.eeg5 = ([⟨8, 16, 24, 32, 40, 48, 56, 64, 0⟩].map
        EegChannelData.eeg5).sum / 1 ∧
      f.eeg6 = ([⟨8, 16, 24, 32, 40, 48, 56, 64, 0⟩].map
        EegChannelData.eeg6).sum / 1 ∧
      f.eeg7 = ([⟨8, 16, 24, 32, 40, 48, 56, 64, 0⟩].map
        EegChannelData.eeg7).sum / 1 ∧
      f.eeg8 = ([⟨8, 16, 24, 32, 40, 48, 56, 64, 0⟩].map
        EegChannelData.eeg8).sum / 1 :=
  extractFeatures_mean [⟨8, 16, 24, 32, 40, 48, 56, 64, 0⟩] (by simp)

theorem normChan_spec (min max v : ℚ) (h : min < max) :
    (0 ≤ normChan min max v ∧ normChan min max v ≤ 1) ∧
    (max ≤ v → normChan min max v = 1) ∧
    (v ≤ min → normChan min max v = 0) := by
  have hd : 0 < max - min := by linarith
  unfold normChan
  refine ⟨⟨le_max_left _ _, max_le (by norm_num) (min_le_left _ _)⟩, ?_, ?_⟩
  · intro hv
    have h1 : (1 : ℚ) ≤ (v - min) / (max - min) := by
      rw [le_div_iff₀ hd]; linarith
    rw [min_eq_left h1, max_eq_right (by norm_num)]
  · intro hv
    have h0 : (v - min) / (max - min) ≤ 0 := by
      apply div_nonpos_of_nonpos_of_nonneg <;> linarith
    rw [min_eq_right (by linarith), max_eq_left (by linarith)]

/-- C2: with valid bounds `min < max`, `normalizeFeatures` succeeds and each
output channel is the clamp of the affine map of the corresponding input
channel: it lies in [0, 1], inputs at/above `max` map to exactly 1, and
inputs at/below `min` map to exactly 0. -/
theorem normalizeFeatures_unit_range (features : Feats) (min max : ℚ)
    (h : min < max) :
    ∃ g, normalizeFeatures features min max = Except.ok g ∧
      List.Forall₂
        (fun v w => (0 ≤ w ∧ w ≤ 1) ∧ (max ≤ v → w = 1) ∧ (v ≤ min → w = 0))
        (featsVals features) (featsVals g) := by
  refine ⟨_, rfl, ?_⟩
  simp only [featsVals]
  exact .cons (normChan_spec min max _ h) (.cons (normChan_spec min max _ h)
    (.cons (normChan_spec min max _ h) (.cons (normChan_spec min max _ h)
    (.cons (normChan_spec min max _ h) (.cons (normChan_spec min max _ h)
    (.cons (normChan_spec min max _ h) (.cons (normChan_spec min max _ h)
    .nil)))))))

theorem normalizeFeatures_unit_range_witness :
    ∃ g, normalizeFeatures ⟨60, -60, 0, 25, -25, 50, -50, 10⟩ (-50) 50 =
        Except.ok g ∧
      List.Forall₂
        (fun v w =>
          (0 ≤ w ∧ w ≤ 1) ∧ ((50 : ℚ) ≤ v → w = 1) ∧ (v ≤ (-50 : ℚ) → w = 0))
        (featsVals ⟨60, -60, 0, 25, -25, 50, -50, 10⟩) (featsVals g) :=
  normalizeFeatures_unit_range ⟨60, -60, 0, 25, -25, 50, -50, 10⟩ (-50) 50
    (by norm_num)

/-- C3 counterexample: the claim "normalizeFeatures with high <= low fails
with a DomainError" is false — with `min = 50 > max = -50` (so high ≤ low)
the function still returns a value: the source has no bounds check and no
throw at all. -/
theorem normalizeFeatures_no_domain_error_cex :
    ((-50 : ℚ) ≤ 50) ∧
    normalizeFeatures zeroFeats 50 (-50) =
      Except.ok ⟨1/2, 1/2, 1/2, 1/2, 1/2, 1/2, 1/2, 1/2⟩ := by
  refine ⟨by norm_num, ?_⟩
  simp only [normalizeFeatures, normChan, zeroFeats, Except.ok.injEq,
    Feats.mk.injEq]
  norm_num

/-- C3 amended: `normalizeFeatures` performs no validation of its bounds —
even when `max ≤ min` it returns a result rather than failing. -/
theorem normalizeFeatures_reversed_bounds_ok (features : Feats) (min max : ℚ)
    (_h : max ≤ min) :
    ∃ g, normalizeFeatures features min max = Except.ok g :=
  ⟨_, rfl⟩

theorem normalizeFeatures_reversed_bounds_ok_witness :
    ∃ g, normalizeFeatures zeroFeats 50 (-50) = Except.ok g :=
  normalizeFeatures_reversed_bounds_ok zeroFeats 50 (-50) (by norm_num)

theorem foldl_appendSample (samples : List EegChannelData) :
    List.foldl appendSample [] samples =
      samples.drop (samples.length - 100) := by
  induction samples using List.reverseRecOn with
  | nil => rfl
  | append_singleton l x ih =>
    rw [List.foldl_append, List.foldl_cons, List.foldl_nil, ih]
    unfold appendSample sliceLast
    rcases le_or_lt l.length 99 with h | h
    · have h1 : l.length - 100 = 0 := by omega
      have h2 : (l ++ [x]).length - 100 = 0 := by
        simp only [List.length_append, List.length_cons, List.length_nil]
        omega
      have h3 : (l.drop (l.length - 100) ++ [x]).length - 100 = 0 := by
        simp only [List.length_append, List.length_drop, List.length_cons,
          List.length_nil]
        omega
      rw [h3, h2, h1]
      simp only [List.drop_zero]
    · have h3 : (l.drop (l.length - 100) ++ [x]).length - 100 = 1 := by
        simp only [List.length_append, List.length_drop, List.length_cons,
          List.length_nil]
        omega
      have h2 : (l ++ [x]).length - 100 = l.length - 99 := by
        simp only [List.length_append, List.length_cons, List.length_nil]
        omega
      rw [h3, h2]
      have hlen1 : (1 : Nat) ≤ (l.drop (l.length - 100)).length := by
        rw [List.length_drop]; omega
      have hlen2 : l.length - 99 ≤ l.length := by omega
      rw [List.drop_append_of_le_length hlen1, List.drop_drop,
        List.drop_append_of_le_length hlen2]
      have harith : l.length - 100 + 1 = l.length - 99 := by omega
      rw [harith]

/-- C9: starting from the empty buffer, after appending any sequence of
samples one at a time via the acquisition-cycle update, the buffer holds
exactly the most recent `min n 100` appended samples in order; in particular
its length never exceeds 100 and, once full, each append evicts the
oldest sample. -/
theorem sampleBuffer_bounded_fifo (samples : List EegChannelData) :
    List.foldl appendSample [] samples =
      samples.drop (samples.length - 100) ∧
    (List.foldl appendSample [] samples).length =
      min samples.length 100 := by
  refine ⟨foldl_appendSample samples, ?_⟩
  rw [foldl_appendSample samples, List.length_drop]
  omega


theorem lookupD_cases (m : List (String × String)) (dflt k : String) :
    lookupD m dflt k = dflt ∨ lookupD m dflt k ∈ m.map Prod.snd := by
  unfold lookupD
  cases hf : m.find? (fun p => p.1 == k) with
  | none => exact Or.inl rfl
  | some p => exact Or.inr (List.mem_map_of_mem _ (List.mem_of_find?_eq_some hf))

theorem lookupD_not_mem (m : List (String × String)) (dflt k : String)
    (hk : ∀ p ∈ m, p.1 ≠ k) : lookupD m dflt k = dflt := by
  unfold lookupD
  rw [List.find?_eq_none.mpr]
  intro p hp
  simpa using hk p hp

theorem lookupD_ne_empty (m : List (String × String)) (dflt k : String)
    (hd : dflt ≠ "") (hv : ∀ v ∈ m.map Prod.snd, v ≠ "") :
    lookupD m dflt k ≠ "" := by
  rcases lookupD_cases m dflt k with h | h
  · rw [h]; exact hd
  · exact hv _ h

/-- C7: the Genre Selector, the music-description selector and the Tone
Selector are total over `string | null`: on every input (each of the 7
enumerated labels, null, or any other string) each returns a non-empty
string, and the null input and any label outside the 7-label enumeration
fall back to the defaults (`'lofi study beats'`,
`'Music to match your mood'`, `'neutral and helpful'`). -/
theorem selectors_total (emotion : Option String) :
    getRecommendedGenre emotion ≠ "" ∧
    getEmotionMusicDescription emotion ≠ "" ∧
    toneForEmotion emotion ≠ "" ∧
    getRecommendedGenre none = "lofi study beats" ∧
    getEmotionMusicDescription none = "Music to match your mood" ∧
    toneForEmotion none = "neutral and helpful" ∧
    (∀ s, emotion = some s → s ∉ EMOTIONS →
      getRecommendedGenre emotion = "lofi study beats" ∧
      getEmotionMusicDescription emotion = "Music to match your mood" ∧
      toneForEmotion emotion = "neutral and helpful") := by
  refine ⟨?_, ?_, ?_, rfl, rfl, rfl, ?_⟩
  · cases emotion with
    | none => decide
    | some s =>
      simp only [getRecommendedGenre]
      split
      · decide
      · exact lookupD_ne_empty emotionToGenreMap "lofi study beats" s
          (by decide) (by decide)
  · cases emotion with
    | none => decide
    | some s =>
      simp only [getEmotionMusicDescription]
      split
      · decide
      · exact lookupD_ne_empty descriptionsMap "Music to match your mood" s
          (by decide) (by decide)
  · cases emotion with
    | none => decide
    | some s =>
      simp only [toneForEmotion]
      split
      · decide
      · exact lookupD_ne_empty emotionToTone "neutral and helpful" s
          (by decide) (by decide)
  · intro s hs hmem
    subst hs
    have hg : ∀ p ∈ emotionToGenreMap, p.1 ≠ s := by
      have hk : ∀ p ∈ emotionToGenreMap, p.1 ∈ EMOTIONS := by decide
      exact fun p hp he => hmem (he ▸ hk p hp)
    have hd : ∀ p ∈ descriptionsMap, p.1 ≠ s := by
      have hk : ∀ p ∈ descriptionsMap, p.1 ∈ EMOTIONS := by decide
      exact fun p hp he => hmem (he ▸ hk p hp)
    have ht : ∀ p ∈ emotionToTone, p.1 ≠ s := by
      have hk : ∀ p ∈ emotionToTone, p.1 ∈ EMOTIONS := by decide
      exact fun p hp he => hmem (he ▸ hk p hp)
    refine ⟨?_, ?_, ?_⟩
    · simp only [getRecommendedGenre]
      split
      · rfl
      · exact lookupD_not_mem emotionToGenreMap "lofi study beats" s hg
    · simp only [getEmotionMusicDescription]
      split
      · rfl
      · exact lookupD_not_mem descriptionsMap "Music to match your mood" s hd
    · simp only [toneForEmotion]
      split
      · rfl
      · exact lookupD_not_mem emotionToTone "neutral and helpful" s ht

theorem selectors_total_witness :
    getRecommendedGenre (some "bogus") = "lofi study beats" ∧
    getEmotionMusicDescription (some "bogus") = "Music to match your mood" ∧
    toneForEmotion (some "bogus") = "neutral and helpful" :=
  (selectors_total (some "bogus")).2.2.2.2.2.2 "bogus" rfl (by decide)

/-- C8: with the remote call failing, `searchYouTubeVideos` on the literal
query "upbeat happy music" returns the fixed 3-item fallback list whose
first track id is dQw4w9WgXcQ, and on a query matching no fallback key
returns the lofi-study-beats fallback list. -/
theorem searchYouTubeVideos_fallback :
    searchYouTubeVideos (Except.error "Network Error") "upbeat happy music" =
      happyTracks ∧
    happyTracks.length = 3 ∧
    (happyTracks.map YouTubeTrack.id).head? = some "dQw4w9WgXcQ" ∧
    searchYouTubeVideos (Except.error "Network Error") "xyz nonsense" =
      lofiTracks := by
  refine ⟨?_, rfl, rfl, ?_⟩ <;> rfl

/-- C10: with the remote call failing and the empty string as query, the
fallback scan matches the first table key in insertion order (every key
contains the empty string), so `searchYouTubeVideos` returns the
"upbeat happy music" list, not the lofi default. -/
theorem searchYouTubeVideos_empty_query :
    searchYouTubeVideos (Except.error "Network Error") "" = happyTracks ∧
    happyTracks ≠ lofiTracks := by
  refine ⟨by rfl, by decide⟩

theorem foldl_pickStep_mem (result : String → ℚ) :
    ∀ (L : List String) (acc : ℚ × String),
      (L.foldl (pickStep result) acc).2 = acc.2 ∨
      (L.foldl (pickStep result) acc).2 ∈ L := by
  intro L
  induction L with
  | nil => intro acc; exact Or.inl rfl
  | cons e t ih =>
    intro acc
    rw [List.foldl_cons]
    have hstep : pickStep result acc e = (result e, e) ∨
        pickStep result acc e = acc := by
      unfold pickStep
      split
      · exact Or.inl rfl
      · exact Or.inr rfl
    rcases hstep with hs | hs
    · rw [hs]
      rcases ih (result e, e) with h | h
      · exact Or.inr (by rw [h]; exact List.mem_cons_self e t)
      · exact Or.inr (List.mem_cons_of_mem e h)
    · rw [hs]
      rcases ih acc with h | h
      · exact Or.inl h
      · exact Or.inr (List.mem_cons_of_mem e h)

theorem pickEmotion_mem (result : String → ℚ) :
    pickEmotion result ∈ EMOTIONS := by
  unfold pickEmotion
  rcases foldl_pickStep_mem result EMOTIONS (0, "neutral") with h | h
  · rw [h]; decide
  · exact h

theorem classifyPipeline_ok_mem (run : Feats → Except String (String → ℚ))
    (eegData : List EegChannelData) (v : String)
    (h : classifyPipeline run eegData = Except.ok v) : v ∈ EMOTIONS := by
  unfold classifyPipeline at h
  split at h
  · simp at h
  · split at h
    · simp at h
    · split at h
      · simp at h
      · simp only [Except.ok.injEq] at h
        exact h ▸ pickEmotion_mem _

/-- C6: `classify` returns `'neutral'` whenever the classifier is missing or
not ready, returns `'neutral'` whenever any internal step of the pipeline
(feature extraction, normalization, or forward evaluation) throws, and in
every case returns one of the 7 enumerated labels — it never propagates an
error to the caller. -/
theorem classify_never_throws (hasClassifier isReady : Bool)
    (run : Feats → Except String (String → ℚ))
    (eegData : List EegChannelData) :
    ((hasClassifier = false ∨ isReady = false) →
      classify hasClassifier isReady run eegData = "neutral") ∧
    (∀ msg, classifyPipeline run eegData = Except.error msg →
      classify hasClassifier isReady run eegData = "neutral") ∧
    classify hasClassifier isReady run eegData ∈ EMOTIONS := by
  refine ⟨?_, ?_, ?_⟩
  · intro hcase
    unfold classify
    rcases hcase with h | h <;> subst h <;> simp
  · intro msg hmsg
    unfold classify
    split
    · rfl
    · rw [hmsg]
  · unfold classify
    split
    · decide
    · cases hP : classifyPipeline run eegData with
      | error e => exact (by decide : ("neutral" : String) ∈ EMOTIONS)
      | ok v => exact classifyPipeline_ok_mem run eegData v hP

theorem classify_never_throws_witness :
    classify false true (fun _ => Except.ok fun _ => 1) [] = "neutral" ∧
    classify true true (fun _ => Except.ok fun _ => 1) [] = "neutral" :=
  ⟨(classify_never_throws false true (fun _ => Except.ok fun _ => 1) []).1
      (Or.inl rfl),
   (classify_never_throws true true (fun _ => Except.ok fun _ => 1) []).2.1
      "No EEG data provided for feature extraction" rfl⟩

theorem foldl_pickStep_const (result : String → ℚ) :
    ∀ (L : List String) (acc : ℚ × String),
      (∀ e ∈ L, result e ≤ acc.1) → L.foldl (pickStep result) acc = acc := by
  intro L
  induction L with
  | nil => intro acc _; rfl
  | cons e t ih =>
    intro acc hle
    rw [List.foldl_cons]
    have hs : pickStep result acc e = acc := by
      unfold pickStep
      rw [if_neg (not_lt.mpr (hle e (List.mem_cons_self e t)))]
    rw [hs]
    exact ih acc (fun f hf => hle f (List.mem_cons_of_mem e hf))

theorem foldl_pickStep_fst_lt (result : String → ℚ) (M : ℚ) :
    ∀ (L : List String) (acc : ℚ × String), acc.1 < M →
      (∀ e ∈ L, result e < M) → (L.foldl (pickStep result) acc).1 < M := by
  intro L
  induction L with
  | nil => intro acc hacc _; exact hacc
  | cons e t ih =>
    intro acc hacc hlt
    rw [List.foldl_cons]
    have hs : (pickStep result acc e).1 < M := by
      unfold pickStep
      split
      · exact hlt e (List.mem_cons_self e t)
      · exact hacc
    exact ih (pickStep result acc e) hs
      (fun f hf => hlt f (List.mem_cons_of_mem e hf))

theorem foldl_pickStep_first_max (result : String → ℚ) (L₁ : List String)
    (e : String) (L₂ : List String) (acc : ℚ × String)
    (h1 : ∀ f ∈ L₁, result f < result e)
    (h2 : ∀ f ∈ L₂, result f ≤ result e)
    (hacc : acc.1 < result e) :
    ((L₁ ++ e :: L₂).foldl (pickStep result) acc).2 = e := by
  rw [List.foldl_append, List.foldl_cons]
  have hfst := foldl_pickStep_fst_lt result (result e) L₁ acc hacc h1
  have hstep : pickStep result (L₁.foldl (pickStep result) acc) e =
      (result e, e) := by
    rw [pickStep, if_pos hfst]
  rw [hstep, foldl_pickStep_const result L₂ (result e, e) h2]

theorem find?_first_true {α : Type} (p : α → Bool) :
    ∀ (L₁ : List α) (e : α) (L₂ : List α),
      (∀ f ∈ L₁, p f = false) → p e = true →
      (L₁ ++ e :: L₂).find? p = some e := by
  intro L₁
  induction L₁ with
  | nil =>
    intro e L₂ _ he
    rw [List.nil_append]
    exact List.find?_cons_of_pos L₂ he
  | cons a t ih =>
    intro e L₂ hfalse he
    rw [List.cons_append,
      List.find?_cons_of_neg _
        (by rw [hfalse a (List.mem_cons_self a t)]; simp)]
    exact ih e L₂ (fun f hf => hfalse f (List.mem_cons_of_mem a hf)) he

theorem exists_first_max (result : String → ℚ) :
    ∀ (L : List String), L ≠ [] →
      ∃ L₁ e L₂, L = L₁ ++ e :: L₂ ∧
        (∀ f ∈ L, result f ≤ result e) ∧
        (∀ f ∈ L₁, result f < result e) := by
  intro L
  induction L with
  | nil => intro h; exact absurd rfl h
  | cons a t ih =>
    intro _
    by_cases ht : t = []
    · subst ht
      exact ⟨[], a, [], rfl, by simp, by simp⟩
    · obtain ⟨t₁, e, t₂, hdec, hmax, hlt⟩ := ih ht
      by_cases hae : result e ≤ result a
      · refine ⟨[], a, t, rfl, ?_, by simp⟩
        intro f hf
        rcases List.mem_cons.mp hf with h | h
        · rw [h]
        · exact le_trans (hmax f h) hae
      · push_neg at hae
        refine ⟨a :: t₁, e, t₂, by rw [hdec, List.cons_append], ?_, ?_⟩
        · intro f hf
          rcases List.mem_cons.mp hf with h | h
          · rw [h]; exact le_of_lt hae
          · exact hmax f h
        · intro f hf
          rcases List.mem_cons.mp hf with h | h
          · rw [h]; exact hae
          · exact hlt f h

/-- C5: whenever every score is positive (as the sigmoid outputs of the
trained network are), the running-max selection loop of `classify` /
`classifyEmotion` returns exactly the first label of the `EMOTIONS`
enumeration whose score is greatest — the strictly highest-scoring label,
with exact ties broken in favour of the label listed first. -/
theorem pickEmotion_eq_specArgmax (result : String → ℚ)
    (hpos : ∀ e ∈ EMOTIONS, 0 < result e) :
    pickEmotion result = specArgmax result := by
  obtain ⟨L₁, e, L₂, hdec, hmax, hlt⟩ :=
    exists_first_max result EMOTIONS (by decide)
  have hemem : e ∈ EMOTIONS := by
    rw [hdec]
    exact List.mem_append_right L₁ (List.mem_cons_self e L₂)
  have hepos : 0 < result e := hpos e hemem
  have hp : pickEmotion result = e := by
    unfold pickEmotion
    rw [hdec]
    refine foldl_pickStep_first_max result L₁ e L₂ (0, "neutral") ?_ ?_ hepos
    · exact fun f hf => hlt f hf
    · intro f hf
      exact hmax f (by
        rw [hdec]
        exact List.mem_append_right L₁ (List.mem_cons_of_mem e hf))
  have hs : specArgmax result = e := by
    unfold specArgmax
    rw [hdec, find?_first_true _ L₁ e L₂ ?_ ?_]
    · rfl
    · intro f hf
      rw [List.all_eq_false]
      refine ⟨e, List.mem_append_right L₁ (List.mem_cons_self e L₂), ?_⟩
      simp only [decide_eq_true_eq]
      exact not_le.mpr (hlt f hf)
    · simp only [List.all_eq_true, decide_eq_true_eq]
      exact fun f hf => hmax f (by rw [hdec]; exact hf)
  rw [hp, hs]

theorem pickEmotion_eq_specArgmax_witness :
    pickEmotion (fun s => if s = "sad" then (3 : ℚ) else 1) =
      specArgmax (fun s => if s = "sad" then (3 : ℚ) else 1) :=
  pickEmotion_eq_specArgmax (fun s => if s = "sad" then (3 : ℚ) else 1)
    (by decide)
